import Mathlib

/-!
Shallow embedding of the recommendation subsystem of this repository.

The repository contains two near-duplicate implementations:
* a Prisma/TypeScript one (`getRecommendations`, `getOllamaRecommendations`,
  `getOllamaRecommendationsForOrder`, `getPopularProducts`), embedded below in
  namespace `Prisma`;
* a Mongo/in-memory-cache one (`getRecommendations`, `getOllamaRecommendations`,
  `getPopularProducts`, `getProductsWithOrderCounts`), embedded in namespace
  `CacheImpl`.

Modelling conventions (stated once here, referenced throughout):
* Product/category/order identifiers are `Nat`; JavaScript `===` comparison of
  ids is `Nat` equality.
* Outbound HTTP is modelled by oracles: the liveness probe is a `Bool`
  (the value `isOllamaAvailable()` resolves to) and the single generate call of
  a request is an `HttpOutcome` (network failure / HTTP status + body).  The
  functions additionally return how many probe / generate calls they issued.
* Storage is modelled all-or-nothing: a Boolean availability flag; a database
  call either succeeds (flag `true`) or throws (flag `false`).  A thrown
  JavaScript error / rejected promise is `Except.error ()`.
* The regex number extraction (`/\d+/g`, `/\b\d+\b/g`, and the
  `Recommended product IDs:` section regex) is implemented on character lists.
* Prompt strings, product names and descriptions only feed the LLM prompt and
  are omitted from the product model; they do not influence any control flow.
* `orderBy: { orderItems: { _count: 'desc' } }` and the JavaScript
  `sort((a, b) => b.orderCount - a.orderCount)` are modelled as a stable
  descending sort on the derived order count.
-/

namespace GSD

/-- Value of a digit character sequence, as computed by `parseInt(_, 10)`. -/
def digitsToNat (ds : List Char) : Nat :=
  ds.foldl (fun n c => n * 10 + (c.toNat - 48)) 0

/-- State machine extracting the maximal digit runs of a character list, i.e.
the matches of the regex `/\d+/g`, already converted by `parseInt`.
The accumulator holds the value of the digit run currently being read. -/
def extractNumbersAux : List Char → Option Nat → List Nat
  | [], none => []
  | [], some n => [n]
  | c :: cs, acc =>
    if c.isDigit then
      extractNumbersAux cs (some ((acc.getD 0) * 10 + (c.toNat - 48)))
    else
      match acc with
      | some n => n :: extractNumbersAux cs none
      | none => extractNumbersAux cs none

/-- All matches of `/\d+/g` on a character list, as numbers. -/
def extractNumbers (s : List Char) : List Nat :=
  extractNumbersAux s none

/-- JavaScript regex word character (for `\b` boundaries). -/
def isWordChar (c : Char) : Bool :=
  c.isAlphanum || c = '_'

/-- State machine extracting the matches of `/\b\d+\b/g`: maximal digit runs
whose neighbouring characters (if any) are not word characters.  `prevWord`
records whether the previous character is a word character; the accumulator
holds the value of a digit run that started at a valid boundary. -/
def extractWBAux : List Char → Bool → Option Nat → List Nat
  | [], _, none => []
  | [], _, some n => [n]
  | c :: cs, prevWord, acc =>
    if c.isDigit then
      match acc with
      | some n => extractWBAux cs true (some (n * 10 + (c.toNat - 48)))
      | none =>
        if prevWord then extractWBAux cs true none
        else extractWBAux cs true (some (c.toNat - 48))
    else
      match acc with
      | some n =>
        if isWordChar c then extractWBAux cs true none
        else n :: extractWBAux cs false none
      | none => extractWBAux cs (isWordChar c) none

/-- All matches of `/\b\d+\b/g` on a character list, as numbers. -/
def extractNumbersWB (s : List Char) : List Nat :=
  extractWBAux s false none

/-- The literal of the section regex `/Recommended product IDs:([^\n]+)/i`,
lower-cased. -/
def sectionPat : List Char :=
  "recommended product ids:".toList

/-- Lower-case a character list (for the case-insensitive regex flag). -/
def lcList (s : List Char) : List Char :=
  s.map Char.toLower

/-- First match of `/Recommended product IDs:([^\n]+)/i`: scans for the first
position where the label occurs (case-insensitively) followed by at least one
non-newline character, and returns that maximal non-newline capture. -/
def findIdSection : List Char → Option (List Char)
  | [] => none
  | c :: cs =>
    if sectionPat.isPrefixOf (lcList (c :: cs)) then
      let rest := (c :: cs).drop sectionPat.length
      let cap := rest.takeWhile (fun ch => ch ≠ '\n')
      if cap.isEmpty then findIdSection cs else some cap
    else findIdSection cs

/-- JavaScript `filter((x, i, self) => self.indexOf(x) === i)`: removes
duplicates keeping the first occurrence of each element. -/
def jsDedup : List Nat → List Nat
  | [] => []
  | a :: l => a :: jsDedup (l.filter (fun x => x ≠ a))
termination_by l => l.length
decreasing_by
  simp only [List.length_cons]
  exact Nat.lt_succ_of_le (List.length_filter_le _ _)

/-- Insert an element into a list sorted by descending key, after all elements
whose key is at least as large (this is the stable position). -/
def insertDesc (key : α → Nat) (x : α) : List α → List α
  | [] => [x]
  | y :: ys => if key y ≤ key x then x :: y :: ys else y :: insertDesc key x ys

/-- Stable descending insertion sort by a `Nat` key; models both the Prisma
`orderBy _count desc` and the JavaScript `sort((a, b) => b.count - a.count)`. -/
def sortByDesc (key : α → Nat) : List α → List α
  | [] => []
  | x :: xs => insertDesc key x (sortByDesc key xs)

/-- Outcome of one outbound HTTP generate call, as the calling code can
distinguish them: a thrown error (network failure, timeout, malformed JSON,
abort), or a settled response with its `ok` status and the `response` text
field (`none` when the parsed JSON has no usable `response` string, which makes
the subsequent `.match` call throw). -/
inductive HttpOutcome where
  | fail
  | resp (ok : Bool) (body : Option String)

/-- Probe / generate call counters accumulated over one request. -/
structure Counts where
  probes : Nat
  gens : Nat
deriving DecidableEq, Repr

/-- Count a call-made flag. -/
def cnt (b : Bool) : Nat :=
  if b then 1 else 0

end GSD

namespace GSD.Prisma

/-- Product row as the Prisma implementation reads it: id, the ids of its
categories (`include: { categories: true }`), and the derived order-item count
used by `orderBy: { orderItems: { _count: 'desc' } }`. -/
structure Product where
  id : Nat
  categories : List Nat
  orderCount : Nat
deriving DecidableEq, Repr

/-- Order line item (only the referenced product id drives control flow). -/
structure OrderItem where
  productId : Nat
deriving DecidableEq, Repr

/-- Order row with its included items. -/
structure Order where
  id : Nat
  items : List OrderItem
deriving DecidableEq, Repr

/-- The database contents visible to this subsystem.  Lists are in table scan
order; `orderBy` clauses are modelled by `sortByDesc`. -/
structure Db where
  products : List Product
  orders : List Order

/-- Request arguments of `getRecommendations` (the unused `userId` is
omitted). -/
structure Args where
  productId : Option Nat
  orderId : Option Nat
  limit : Nat

/-- Product ids of a product list. -/
@[reducible] def pids (l : List Product) : List Nat :=
  l.map (·.id)

/-- `orderBy: { orderItems: { _count: 'desc' } }` on a filtered product set. -/
def sortDesc (l : List Product) : List Product :=
  sortByDesc (·.orderCount) l

/-- The fallback query: all products except the seed product (when a
`productId` is given), ordered by descending order-item count, first `limit`
rows. -/
def fallbackProducts (db : Db) (pid? : Option Nat) (limit : Nat) : List Product :=
  (sortDesc (db.products.filter (fun p =>
    match pid? with
    | some pid => p.id != pid
    | none => true))).take limit

/-- Numbers parsed out of an Ollama response by the product-seeded ranker:
the capture of `/Recommended product IDs:([^\n]+)/i` when that regex matches,
otherwise the whole text, scanned with `/\d+/g`. -/
def productParsedNumbers (s : String) : List Nat :=
  match findIdSection s.toList with
  | some sec => extractNumbers sec
  | none => extractNumbers s.toList

/-- `getOllamaRecommendations` (product-seeded ranker) of the Prisma
implementation.  The first component is the returned id list (`none` = JS
`null`), the second records whether the outbound generate call was issued.
The `currentProduct` argument only feeds the prompt. -/
def getOllamaRecommendations (_currentProduct : Option Product)
    (productsToRank : List Product) (limit : Nat) (resp : HttpOutcome) :
    Option (List Nat) × Bool :=
  if productsToRank.length < limit then (none, false)
  else
    match resp with
    | .fail => (none, true)
    | .resp ok body =>
      if ok then
        match body with
        | none => (none, true)
        | some s =>
          match productParsedNumbers s with
          | [] => (none, true)
          | n :: ns =>
            let productIds := (n :: ns).filter
              (fun i => productsToRank.any (fun p => p.id == i))
            if productIds.length < min 2 limit then (none, true)
            else (some productIds, true)
      else (none, true)

/-- `getOllamaRecommendationsForOrder` of the Prisma implementation: same
shape, but the whole response is scanned with `/\b\d+\b/g` (no labeled
section).  The `order` argument only feeds the prompt. -/
def getOllamaRecommendationsForOrder (_order : Option Order)
    (productsToRank : List Product) (limit : Nat) (resp : HttpOutcome) :
    Option (List Nat) × Bool :=
  if productsToRank.length < limit then (none, false)
  else
    match resp with
    | .fail => (none, true)
    | .resp ok body =>
      if ok then
        match body with
        | none => (none, true)
        | some s =>
          match extractNumbersWB s.toList with
          | [] => (none, true)
          | n :: ns =>
            let productIds := (n :: ns).filter
              (fun i => productsToRank.any (fun p => p.id == i))
            if productIds.length < min 2 limit then (none, true)
            else (some productIds, true)
      else (none, true)

/-- `recommendedIds.map(id => productsMap.get(id)).filter(Boolean)`: products
of the pool in the order proposed by the model. -/
def rankedLookup (ids : List Nat) (pool : List Product) : List Product :=
  ids.filterMap (fun i => pool.find? (fun p => p.id == i))

/-- The common tail of both paths when ranking was not used: the category
products truncated to `limit`, padded with fallback products not already among
them.  `slice` records whether the call site applies a final `.slice(0, limit)`
to the padded list (the order path does, the product path does not). -/
def categoryResult (similar fb : List Product) (limit : Nat) (slice : Bool) :
    List Product :=
  if limit ≤ similar.length then similar.take limit
  else
    let additionalFallbacks :=
      (fb.filter (fun p => !(similar.any (fun sp => sp.id == p.id)))).take
        (limit - similar.length)
    if slice then (similar ++ additionalFallbacks).take limit
    else similar ++ additionalFallbacks

/-- Distinct category ids across the items of an order
(`flatMap(...).filter((id, i, self) => self.indexOf(id) === i)`); each item's
product is fetched through its relation. -/
def orderCategoryIds (db : Db) (o : Order) : List Nat :=
  jsDedup (o.items.flatMap (fun it =>
    match db.products.find? (fun p => p.id == it.productId) with
    | some p => p.categories
    | none => []))

/-- Order-seeded candidate query: products not purchased in the order whose
category set meets the order's category ids, first `limit * 2` rows. -/
def orderSimilar (db : Db) (o : Order) (limit : Nat) : List Product :=
  (db.products.filter (fun p =>
    !((o.items.map (·.productId)).contains p.id) &&
    p.categories.any (fun c => (orderCategoryIds db o).contains c))).take
      (limit * 2)

/-- Order-seeded branch of `getRecommendations` (assumes storage is up;
returns the resulting list and the number of generate calls issued). -/
def orderPath (db : Db) (fb : List Product) (useOllama : Bool)
    (resp : HttpOutcome) (oid limit : Nat) : List Product × Nat :=
  match db.orders.find? (fun o => o.id == oid) with
  | none => (fb, 0)
  | some o =>
    if o.items.isEmpty then (fb, 0)
    else if (orderCategoryIds db o).isEmpty then (fb, 0)
    else
      let similar := orderSimilar db o limit
      let catRes := if similar.isEmpty then fb
        else categoryResult similar fb limit true
      if useOllama && decide (2 ≤ similar.length) then
        match getOllamaRecommendationsForOrder (some o) similar limit resp with
        | (some ids, c) =>
          if ids.isEmpty then (catRes, cnt c)
          else
            let recommendedProducts := (rankedLookup ids similar).take limit
            if min 2 limit ≤ recommendedProducts.length then
              if recommendedProducts.length < limit then
                ((recommendedProducts ++
                  (similar.filter (fun p => !(ids.contains p.id))).take
                    (limit - recommendedProducts.length)), cnt c)
              else (recommendedProducts, cnt c)
            else (catRes, cnt c)
        | (none, c) => (catRes, cnt c)
      else (catRes, 0)

/-- Product-seeded candidate query: products other than the seed whose
category set meets the seed's categories — before the hardcoded `take: 10`. -/
def similarPre (db : Db) (pid : Nat) (cur : Product) : List Product :=
  db.products.filter (fun p =>
    p.id != pid && p.categories.any (fun c => cur.categories.contains c))

/-- Product-seeded candidates, capped by the hardcoded `take: 10`. -/
def similarFor (db : Db) (pid : Nat) (cur : Product) : List Product :=
  (similarPre db pid cur).take 10

/-- Supplemental popular products fetched when fewer than `limit` category
matches exist: not the seed, not already selected, by descending order count,
first `limit * 2` rows. -/
def additionalFor (db : Db) (pid : Nat) (similar : List Product) (limit : Nat) :
    List Product :=
  (sortDesc (db.products.filter (fun p =>
    p.id != pid && !(similar.any (fun sp => sp.id == p.id))))).take (limit * 2)

/-- The candidate pool handed to the ranker on the product path:
category matches, supplemented with popular products when they number fewer
than `limit`. -/
def toRankFor (db : Db) (pid : Nat) (cur : Product) (limit : Nat) :
    List Product :=
  let similar := similarFor db pid cur
  if similar.length < limit then similar ++ additionalFor db pid similar limit
  else similar

/-- Product-seeded branch of `getRecommendations` (assumes storage is up). -/
def productPath (db : Db) (fb : List Product) (useOllama : Bool)
    (resp : HttpOutcome) (pid limit : Nat) : List Product × Nat :=
  match db.products.find? (fun p => p.id == pid) with
  | none => (fb, 0)
  | some cur =>
    if cur.categories.isEmpty then (fb, 0)
    else
      let similar := similarFor db pid cur
      let productsToRank := toRankFor db pid cur limit
      let catRes := if similar.isEmpty then fb
        else categoryResult similar fb limit false
      if useOllama && decide (limit ≤ productsToRank.length) then
        match getOllamaRecommendations (some cur) productsToRank limit resp with
        | (some ids, c) =>
          if ids.isEmpty then (catRes, cnt c)
          else
            let recommendedProducts := (rankedLookup ids productsToRank).take limit
            if limit ≤ recommendedProducts.length then (recommendedProducts, cnt c)
            else
              ((recommendedProducts ++
                productsToRank.filter (fun p => !(ids.contains p.id))).take limit,
               cnt c)
        | (none, c) => (catRes, cnt c)
      else (catRes, 0)

/-- Body of `getRecommendations` once the fallback query succeeded: prepare
the fallback list, then dispatch on `orderId` / `productId` (the source's
sequential `if (orderId) { ... return ... }` / `if (productId) { ... }`).
Returns the list and the number of generate calls. -/
def mainBody (db : Db) (env probe : Bool) (resp : HttpOutcome) (a : Args) :
    List Product × Nat :=
  let useOllama := env && probe
  let fb := fallbackProducts db a.productId a.limit
  match a.orderId with
  | some oid => orderPath db fb useOllama resp oid a.limit
  | none =>
    match a.productId with
    | some pid => productPath db fb useOllama resp pid a.limit
    | none => (fb, 0)

/-- `getPopularProducts` of the Prisma implementation. -/
def getPopularProducts (db : Db) (avail : Bool) (limit : Nat) :
    Except Unit (List Product) :=
  if avail then .ok ((sortDesc db.products).take limit) else .error ()

/-- `getRecommendations` of the Prisma implementation.  `avail` is storage
availability; `env` is the `USE_OLLAMA` flag; `probe` the liveness-probe
outcome; `resp` the generate-call outcome.  The probe is issued (short-circuit
`USE_OLLAMA && await isOllamaAvailable()`) before the fallback query; when
storage is down the fallback query throws and the top-level catch returns
`getPopularProducts(limit)`, whose own rejection propagates to the caller. -/
def getRecommendations (db : Db) (avail env probe : Bool) (resp : HttpOutcome)
    (a : Args) : Except Unit (List Product) × Counts :=
  let probes := if env then 1 else 0
  if avail then
    let r := mainBody db env probe resp a
    (.ok r.1, ⟨probes, r.2⟩)
  else
    (getPopularProducts db avail a.limit, ⟨probes, 0⟩)

end GSD.Prisma

namespace GSD.CacheImpl

/-- Product entry as built by `getProductsWithOrderCounts`: the Mongo document
flattened to id, a singleton category list, the aggregated order count and the
sustainability score. -/
structure CProduct where
  id : Nat
  categories : List Nat
  orderCount : Nat
  sustainabilityScore : Int
deriving DecidableEq, Repr

/-- The module-level `productsCache` object: the cached array (or `null`) and
its last-refresh timestamp (milliseconds). -/
structure CacheSt where
  data : Option (List CProduct)
  lastUpdate : Nat
deriving DecidableEq, Repr

/-- Storage as this implementation sees it: an availability flag and the
product-with-counts list that a full scan plus order aggregation would
produce right now (the `Product.find()` / `Order.aggregate` pipeline is
abstracted to its result). -/
structure CDb where
  avail : Bool
  fresh : List CProduct

/-- Product ids of a product list. -/
@[reducible] def cpids (l : List CProduct) : List Nat :=
  l.map (·.id)

/-- `products.sort((a, b) => b.orderCount - a.orderCount)` — note the source
sorts the cached array in place. -/
def sortDescC (l : List CProduct) : List CProduct :=
  sortByDesc (·.orderCount) l

/-- Cache-miss branch of `getProductsWithOrderCounts`: scan + aggregate, store
the new snapshot with a fresh timestamp. -/
def cacheRefresh (now : Nat) (db : CDb) :
    Except Unit (List CProduct × CacheSt) :=
  if db.avail then .ok (db.fresh, ⟨some db.fresh, now⟩) else .error ()

/-- `getProductsWithOrderCounts`: return the cached snapshot while
`data` is non-null and `now - lastUpdate < 300000`; otherwise recompute and
refresh the cache.  Returns the product list together with the cache state
after the call. -/
def getProductsWithOrderCounts (c : CacheSt) (now : Nat) (db : CDb) :
    Except Unit (List CProduct × CacheSt) :=
  match c.data with
  | some d => if now - c.lastUpdate < 300000 then .ok (d, c) else cacheRefresh now db
  | none => cacheRefresh now db

/-- `getPopularProducts` of the cache implementation.  `products.sort(...)`
sorts the array referenced by the cache in place, so the cache afterwards
holds the sorted array; `slice` then copies the first `limit` entries. -/
def getPopularProducts (c : CacheSt) (now : Nat) (db : CDb) (limit : Nat) :
    Except Unit (List CProduct × CacheSt) :=
  match getProductsWithOrderCounts c now db with
  | .error e => .error e
  | .ok (ps, c1) =>
    let sorted := sortDescC ps
    .ok (sorted.take limit, ⟨some sorted, c1.lastUpdate⟩)

/-- Similarity filter of the cache implementation — before the
`slice(0, limit * 2)` cap.  A product qualifies when it is not the seed,
shares a category with the seed, and its sustainability score is within 20 of
the seed's. -/
def cacheSimilarPre (products : List CProduct) (pid : Nat) (cur : CProduct) :
    List CProduct :=
  products.filter (fun p =>
    p.id != pid &&
    p.categories.any (fun c => cur.categories.contains c) &&
    decide ((p.sustainabilityScore - cur.sustainabilityScore).natAbs ≤ 20))

/-- Similar products, capped at `limit * 2`. -/
def cacheSimilar (products : List CProduct) (pid : Nat) (cur : CProduct)
    (limit : Nat) : List CProduct :=
  (cacheSimilarPre products pid cur).take (limit * 2)

/-- `getOllamaRecommendations` of the cache implementation: requires
`productsToRank.length >= limit` (else `null`, no call); scans the response
with `/\d+/g`; keeps the integers that are candidate ids, sliced to `limit`;
returns that list with no minimum-size threshold (the `>= 2` check lives in
the orchestrator).  Second component: whether the generate call was issued. -/
def getOllamaRecommendations (_currentProduct : Option CProduct)
    (productsToRank : List CProduct) (limit : Nat) (resp : HttpOutcome) :
    Option (List Nat) × Bool :=
  if productsToRank.length < limit then (none, false)
  else
    match resp with
    | .fail => (none, true)
    | .resp ok body =>
      if ok then
        match body with
        | none => (none, true)
        | some s =>
          match extractNumbers s.toList with
          | [] => (none, true)
          | n :: ns =>
            (some (((n :: ns).filter
              (fun i => productsToRank.any (fun p => p.id == i))).take limit),
             true)
      else (none, true)

/-- Ranked products of the cache orchestrator:
`recommendedIds.map(id => similarProducts.find(p => p.id === id)).filter(Boolean)`. -/
def rankedLookupC (ids : List Nat) (pool : List CProduct) : List CProduct :=
  ids.filterMap (fun i => pool.find? (fun p => p.id == i))

/-- Final non-ranked tail of the cache orchestrator: the similar products
truncated to `limit` when at least `limit` exist, otherwise the popularity
fallback (no padding). -/
def cacheNonRanked (similar fb : List CProduct) (limit : Nat) : List CProduct :=
  if limit ≤ similar.length then similar.take limit else fb

/-- `getRecommendations` of the cache implementation.  Returns the result (or
the propagated storage error), the cache state after the call, and the call
counters.  The top-level catch returns `getPopularProducts(limit)`, whose own
rejection propagates.  Note `products.sort(...)` mutates the cached array, so
every later read (`find`, `filter`) and the final cache state see the sorted
array. -/
def getRecommendations (c : CacheSt) (now : Nat) (db : CDb) (env probe : Bool)
    (resp : HttpOutcome) (pid? : Option Nat) (limit : Nat) :
    Except Unit (List CProduct) × CacheSt × Counts :=
  match getProductsWithOrderCounts c now db with
  | .error _ =>
    (match getPopularProducts c now db limit with
     | .error _ => (.error (), c, ⟨0, 0⟩)
     | .ok (l, c1) => (.ok l, c1, ⟨0, 0⟩))
  | .ok (ps, c1) =>
    let sorted := sortDescC ps
    let c2 : CacheSt := ⟨some sorted, c1.lastUpdate⟩
    let fb := sorted.take limit
    match pid? with
    | none => (.ok fb, c2, ⟨0, 0⟩)
    | some pid =>
      match sorted.find? (fun p => p.id == pid) with
      | none => (.ok fb, c2, ⟨0, 0⟩)
      | some cur =>
        let similar := cacheSimilar sorted pid cur limit
        let probes := if env then 1 else 0
        if env && probe && decide (limit ≤ similar.length) then
          match getOllamaRecommendations (some cur) similar limit resp with
          | (some ids, c) =>
            if 2 ≤ ids.length then
              let recommendations := (rankedLookupC ids similar).take limit
              if recommendations.length = limit then
                (.ok recommendations, c2, ⟨probes, cnt c⟩)
              else (.ok (cacheNonRanked similar fb limit), c2, ⟨probes, cnt c⟩)
            else (.ok (cacheNonRanked similar fb limit), c2, ⟨probes, cnt c⟩)
          | (none, c) => (.ok (cacheNonRanked similar fb limit), c2, ⟨probes, cnt c⟩)
        else (.ok (cacheNonRanked similar fb limit), c2, ⟨probes, 0⟩)

end GSD.CacheImpl

namespace GSD

/-- Two-product catalog (seed `1`, one same-category product) used as a
witness input. -/
def wDb2 : Prisma.Db :=
  ⟨[⟨1, [1], 0⟩, ⟨2, [1], 3⟩], []⟩

/-- Three-product catalog used to exercise a successful ranking run. -/
def wDb4 : Prisma.Db :=
  ⟨[⟨1, [1], 0⟩, ⟨2, [1], 0⟩, ⟨3, [1], 0⟩], []⟩

/-- The seed product of `wDb4`. -/
def wCur4 : Prisma.Product :=
  ⟨1, [1], 0⟩

/-- The candidate pool `wDb4` produces for seed `1` and limit `2`. -/
def wToRank4 : List Prisma.Product :=
  Prisma.toRankFor wDb4 1 wCur4 2

/-- Catalog with a seed product and nine same-category products: the
product-seeded candidate pool for `limit = 4` then holds nine products. -/
def exDb5 : Prisma.Db :=
  ⟨[⟨100, [1], 0⟩, ⟨1, [1], 0⟩, ⟨2, [1], 0⟩, ⟨3, [1], 0⟩, ⟨4, [1], 0⟩,
    ⟨5, [1], 0⟩, ⟨6, [1], 0⟩, ⟨7, [1], 0⟩, ⟨8, [1], 0⟩, ⟨9, [1], 0⟩], []⟩

/-- The seed product of `exDb5`. -/
def exSeed5 : Prisma.Product :=
  ⟨100, [1], 0⟩

/-- Popular seed product (order count 5) with no same-category companion. -/
def cex2seed : CacheImpl.CProduct :=
  ⟨1, [1], 5, 50⟩

/-- The only other product of the `C2` cache-catalog, in another category. -/
def cex2other : CacheImpl.CProduct :=
  ⟨2, [2], 0, 50⟩

/-- Fresh cache holding the `C2` catalog. -/
def cex2cache : CacheImpl.CacheSt :=
  ⟨some [cex2seed, cex2other], 0⟩

/-- Fresh cache for the duplicate-id scenario: seed `1` and two candidates
`5`, `6`, all in category `1` with equal scores. -/
def cex3cache : CacheImpl.CacheSt :=
  ⟨some [⟨1, [1], 0, 50⟩, ⟨5, [1], 0, 50⟩, ⟨6, [1], 0, 50⟩], 0⟩

/-- Fresh cache for the short-ranked-set scenario: seed `1` and candidates
`2`–`5`, all in category `1` with equal scores. -/
def cex4cache : CacheImpl.CacheSt :=
  ⟨some [⟨1, [1], 0, 50⟩, ⟨2, [1], 0, 50⟩, ⟨3, [1], 0, 50⟩, ⟨4, [1], 0, 50⟩,
         ⟨5, [1], 0, 50⟩], 0⟩

/-- The seed product of `cex4cache`. -/
def cex4seed : CacheImpl.CProduct :=
  ⟨1, [1], 0, 50⟩

/-- A storage state that is never consulted (fresh caches above). -/
def cexDb : CacheImpl.CDb :=
  ⟨true, []⟩

/-- Seed product for the sustainability-eligibility scenario. -/
def cex7seed : CacheImpl.CProduct :=
  ⟨1, [1], 0, 50⟩

/-- Product sharing the seed's category but with sustainability score 90. -/
def cex7px : CacheImpl.CProduct :=
  ⟨2, [1], 0, 90⟩

/-- Cache product with order count 1. -/
def cex10a : CacheImpl.CProduct :=
  ⟨1, [1], 1, 0⟩

/-- Cache product with order count 2. -/
def cex10b : CacheImpl.CProduct :=
  ⟨2, [1], 2, 0⟩

/-- Fresh cache holding `[cex10a, cex10b]` in that (unsorted) order. -/
def cex10cache : CacheImpl.CacheSt :=
  ⟨some [cex10a, cex10b], 100⟩

end GSD

namespace GSD

theorem insertDesc_perm (key : α → Nat) (x : α) (l : List α) :
    (insertDesc key x l).Perm (x :: l) := by
  induction l with
  | nil => exact List.Perm.refl _
  | cons y ys ih =>
    simp only [insertDesc]
    split
    · exact List.Perm.refl _
    · exact (ih.cons y).trans (List.Perm.swap x y ys)

theorem sortByDesc_perm (key : α → Nat) (l : List α) :
    (sortByDesc key l).Perm l := by
  induction l with
  | nil => exact List.Perm.refl _
  | cons x xs ih =>
    exact (insertDesc_perm key x (sortByDesc key xs)).trans (ih.cons x)

theorem take_len_le (n : Nat) (l : List α) : (l.take n).length ≤ n := by
  rw [List.length_take]
  omega

/-- C1 counterexample: with the storage layer unavailable, the Prisma
`getRecommendations` propagates a thrown error to its caller instead of
producing an empty list — its top-level catch calls `getPopularProducts`,
whose own query rejects. -/
theorem C1_counterexample :
    (Prisma.getRecommendations ⟨[], []⟩ false false false .fail
      ⟨none, none, 4⟩).1 = .error () := rfl

/-- C1 (amended): `getRecommendations` returns a list (never a thrown error)
whenever the storage layer serves its queries — for the Prisma implementation
whenever storage is available, for the cache implementation whenever the
product fetch (cache hit or successful scan) succeeds; when even the
popularity-fallback computation fails, the error propagates. -/
theorem C1_amended :
    (∀ db env probe resp a,
      ∃ l, (Prisma.getRecommendations db true env probe resp a).1 = .ok l)
    ∧ (∀ c now db env probe resp pid? limit ps c1,
        CacheImpl.getProductsWithOrderCounts c now db = .ok (ps, c1) →
        ∃ l cc cn, CacheImpl.getRecommendations c now db env probe resp pid? limit
          = (.ok l, cc, cn)) := by
  constructor
  · intro db env probe resp a
    exact ⟨(Prisma.mainBody db env probe resp a).1, rfl⟩
  · intro c now db env probe resp pid? limit ps c1 h
    unfold CacheImpl.getRecommendations
    rw [h]
    dsimp only
    repeat' split
    all_goals exact ⟨_, _, _, rfl⟩

/-- C1 witness: the cache implementation returns a list on a fresh cache. -/
theorem C1_witness :
    ∃ l cc cn, CacheImpl.getRecommendations cex2cache 0 cexDb false false .fail
      none 4 = (.ok l, cc, cn) :=
  C1_amended.2 cex2cache 0 cexDb false false .fail none 4
    [cex2seed, cex2other] cex2cache rfl

/-- C5 counterexample: with `limit = 4` and nine category matches, the
product-seeded candidate pool holds nine products, exceeding `limit * 2 = 8`
(the category cap is the hardcoded `take: 10`), and the ranking call is still
issued with that pool. -/
theorem C5_counterexample :
    ¬ ((Prisma.toRankFor exDb5 100 exSeed5 4).length ≤ 4 * 2)
    ∧ (Prisma.getRecommendations exDb5 true true true .fail
        ⟨some 100, none, 4⟩).2.gens = 1 :=
  ⟨by decide, rfl⟩

/-- C5 (amended): the cache implementation caps the candidate pool at
`limit * 2`; the Prisma implementation caps category matches at the hardcoded
10 and, when fewer than `limit` match, appends up to `limit * 2` popular
products, so its pool is only bounded by `max 10 (3 * limit - 1)` and can
exceed `limit * 2`. -/
theorem C5_amended :
    (∀ db pid cur limit,
      (Prisma.toRankFor db pid cur limit).length ≤ max 10 (3 * limit - 1))
    ∧ (∀ products pid cur limit,
      (CacheImpl.cacheSimilar products pid cur limit).length ≤ limit * 2) := by
  constructor
  · intro db pid cur limit
    have hs : (Prisma.similarFor db pid cur).length ≤ 10 :=
      take_len_le 10 (Prisma.similarPre db pid cur)
    have ha : (Prisma.additionalFor db pid (Prisma.similarFor db pid cur)
        limit).length ≤ limit * 2 :=
      take_len_le (limit * 2) _
    simp only [Prisma.toRankFor]
    split
    · rw [List.length_append]
      have h10 := Nat.le_max_left 10 (3 * limit - 1)
      have h31 := Nat.le_max_right 10 (3 * limit - 1)
      omega
    · have h10 := Nat.le_max_left 10 (3 * limit - 1)
      omega
  · intro products pid cur limit
    exact take_len_le (limit * 2) _

/-- C6 counterexample: the cache implementation's ranking function, given a
response whose only integer is not a candidate id, returns a non-null empty
list (not `null`) although `0 < min 2 limit` valid ids were parsed. -/
theorem C6_counterexample :
    (CacheImpl.getOllamaRecommendations (some ⟨1, [1], 0, 50⟩)
        [⟨5, [1], 0, 50⟩, ⟨6, [1], 0, 50⟩] 2 (.resp true (some "9"))).1 = some []
    ∧ List.length ([] : List Nat) < min 2 2 :=
  ⟨rfl, by decide⟩

/-- C7 counterexample: in the cache implementation a product that is not the
seed and shares a category with it is nevertheless excluded from the
candidate pool because its sustainability score differs by more than 20. -/
theorem C7_counterexample :
    cex7px ∈ [cex7seed, cex7px]
    ∧ cex7px.id ≠ cex7seed.id
    ∧ cex7px.categories.any (fun c => cex7seed.categories.contains c) = true
    ∧ cex7px ∉ CacheImpl.cacheSimilarPre [cex7seed, cex7px] cex7seed.id cex7seed := by
  refine ⟨by decide, by decide, by decide, by decide⟩

/-- C7 (amended): Prisma candidate eligibility (before the cap) is exactly
"not the seed and non-empty category intersection"; the cache implementation
additionally requires the sustainability scores to differ by at most 20. -/
theorem C7_amended :
    (∀ (db : Prisma.Db) pid cur p, p ∈ Prisma.similarPre db pid cur ↔
      p ∈ db.products ∧ p.id ≠ pid ∧ ∃ c, c ∈ p.categories ∧ c ∈ cur.categories)
    ∧ (∀ (products : List CacheImpl.CProduct) pid cur p,
      p ∈ CacheImpl.cacheSimilarPre products pid cur ↔
      p ∈ products ∧ p.id ≠ pid
        ∧ (∃ c, c ∈ p.categories ∧ c ∈ cur.categories)
        ∧ (p.sustainabilityScore - cur.sustainabilityScore).natAbs ≤ 20) := by
  constructor
  · intro db pid cur p
    simp [Prisma.similarPre, List.mem_filter, List.any_eq_true]
  · intro products pid cur p
    simp [CacheImpl.cacheSimilarPre, List.mem_filter, List.any_eq_true,
      and_assoc]

/-- C8: the Prisma ranking function is total with respect to errors.  It
returns `null` with no outbound call when the pool is smaller than `limit`,
and returns `null` on a network error or timeout, a non-success HTTP status,
a malformed or `response`-less JSON body, and a response with no parseable
number. -/
theorem C8_confirmed :
    (∀ cur toRank limit (resp : HttpOutcome), toRank.length < limit →
      Prisma.getOllamaRecommendations cur toRank limit resp = (none, false))
    ∧ (∀ cur toRank limit,
      (Prisma.getOllamaRecommendations cur toRank limit .fail).1 = none)
    ∧ (∀ cur toRank limit body,
      (Prisma.getOllamaRecommendations cur toRank limit (.resp false body)).1 = none)
    ∧ (∀ cur toRank limit,
      (Prisma.getOllamaRecommendations cur toRank limit (.resp true none)).1 = none)
    ∧ (∀ cur toRank limit s, Prisma.productParsedNumbers s = [] →
      (Prisma.getOllamaRecommendations cur toRank limit (.resp true (some s))).1
        = none) := by
  refine ⟨?_, ?_, ?_, ?_, ?_⟩
  · intro cur toRank limit resp h
    simp only [Prisma.getOllamaRecommendations, if_pos h]
  · intro cur toRank limit
    simp only [Prisma.getOllamaRecommendations]
    split <;> rfl
  · intro cur toRank limit body
    simp only [Prisma.getOllamaRecommendations]
    split <;> rfl
  · intro cur toRank limit
    simp only [Prisma.getOllamaRecommendations]
    split <;> rfl
  · intro cur toRank limit s h
    simp only [Prisma.getOllamaRecommendations, h]
    split <;> rfl

/-- C8 witness: concrete instances of the short-pool case and the
no-numbers-in-response case. -/
theorem C8_witness :
    Prisma.getOllamaRecommendations none [] 1 .fail = (none, false)
    ∧ (Prisma.getOllamaRecommendations none [⟨1, [], 0⟩] 1
        (.resp true (some "abc"))).1 = none :=
  ⟨C8_confirmed.1 none [] 1 .fail (by decide),
   C8_confirmed.2.2.2.2 none [⟨1, [], 0⟩] 1 "abc" (by decide)⟩

/-- C10 counterexample: `getPopularProducts` on a fresh cache reorders the
cached snapshot in place (`products.sort` mutates the cached array), so the
cache does not hold the same products in the same order afterwards. -/
theorem C10_counterexample :
    CacheImpl.getPopularProducts cex10cache 100 ⟨true, []⟩ 4
      = .ok ([cex10b, cex10a], ⟨some [cex10b, cex10a], 100⟩)
    ∧ some [cex10b, cex10a] ≠ cex10cache.data :=
  ⟨rfl, by decide⟩

/-- C10 (amended): on a fresh cache, `getPopularProducts` and
`getRecommendations` neither add nor remove cached products and keep the
timestamp, but they replace the snapshot by its in-place popularity sort —
a permutation of the previous snapshot. -/
theorem C10_amended :
    (∀ c now db limit d, c.data = some d → now - c.lastUpdate < 300000 →
      CacheImpl.getPopularProducts c now db limit
        = .ok ((CacheImpl.sortDescC d).take limit,
            ⟨some (CacheImpl.sortDescC d), c.lastUpdate⟩)
      ∧ (CacheImpl.sortDescC d).Perm d)
    ∧ (∀ c now db env probe resp pid? limit d,
        c.data = some d → now - c.lastUpdate < 300000 →
        (CacheImpl.getRecommendations c now db env probe resp pid? limit).2.1
          = ⟨some (CacheImpl.sortDescC d), c.lastUpdate⟩
        ∧ (CacheImpl.sortDescC d).Perm d) := by
  constructor
  · intro c now db limit d h1 h2
    refine ⟨?_, sortByDesc_perm _ d⟩
    simp only [CacheImpl.getPopularProducts, CacheImpl.getProductsWithOrderCounts,
      h1, if_pos h2]
  · intro c now db env probe resp pid? limit d h1 h2
    refine ⟨?_, sortByDesc_perm _ d⟩
    simp only [CacheImpl.getRecommendations, CacheImpl.getProductsWithOrderCounts,
      h1, if_pos h2]
    repeat' split
    all_goals rfl

/-- C6 (amended): both Prisma ranking functions return `null` whenever fewer
than `min 2 limit` valid ids were parsed; the cache implementation's ranking
function has no such threshold and can return a shorter non-null list, but its
orchestrator checks `recommendedIds.length >= 2` and still takes the
candidate/fallback path. -/
theorem C6_amended :
    (∀ cur toRank limit resp ids b,
      Prisma.getOllamaRecommendations cur toRank limit resp = (some ids, b) →
      min 2 limit ≤ ids.length)
    ∧ (∀ o toRank limit resp ids b,
      Prisma.getOllamaRecommendationsForOrder o toRank limit resp = (some ids, b) →
      min 2 limit ≤ ids.length)
    ∧ (∀ c now db probe resp pid limit ps c1 cur ids b2,
      CacheImpl.getProductsWithOrderCounts c now db = .ok (ps, c1) →
      (CacheImpl.sortDescC ps).find? (fun p => p.id == pid) = some cur →
      CacheImpl.getOllamaRecommendations (some cur)
        (CacheImpl.cacheSimilar (CacheImpl.sortDescC ps) pid cur limit) limit resp
        = (some ids, b2) →
      ids.length < 2 →
      (CacheImpl.getRecommendations c now db true probe resp (some pid) limit).1
        = .ok (CacheImpl.cacheNonRanked
            (CacheImpl.cacheSimilar (CacheImpl.sortDescC ps) pid cur limit)
            ((CacheImpl.sortDescC ps).take limit) limit)) := by
  refine ⟨?_, ?_, ?_⟩
  · intro cur toRank limit resp ids b h
    unfold Prisma.getOllamaRecommendations at h
    dsimp only at h
    repeat' split at h
    all_goals try (exact Option.noConfusion (congrArg Prod.fst h))
    all_goals
      rw [Prod.mk.injEq] at h
      obtain ⟨h1, h2⟩ := h
      injection h1 with h1
      subst h1
      omega
  · intro o toRank limit resp ids b h
    unfold Prisma.getOllamaRecommendationsForOrder at h
    dsimp only at h
    repeat' split at h
    all_goals try (exact Option.noConfusion (congrArg Prod.fst h))
    all_goals
      rw [Prod.mk.injEq] at h
      obtain ⟨h1, h2⟩ := h
      injection h1 with h1
      subst h1
      omega
  · intro c now db probe resp pid limit ps c1 cur ids b2 hfetch hfind hollama hlen
    unfold CacheImpl.getRecommendations
    rw [hfetch]
    dsimp only
    rw [hfind]
    dsimp only
    split
    · rw [hollama]
      dsimp only
      rw [if_neg (by omega)]
    · rfl

/-- C6 witness: a run of the Prisma ranker that returns two valid ids. -/
theorem C6_witness :
    min 2 2 ≤ ([5, 6] : List Nat).length :=
  C6_amended.1 (some ⟨1, [1], 0⟩) [⟨5, [1], 0⟩, ⟨6, [1], 0⟩] 2
    (.resp true (some "5 6")) [5, 6] true (by rfl)

/-- With the `USE_OLLAMA` flag off, the order path ignores its oracles. -/
theorem orderPath_noOllama (db : Prisma.Db) (fb : List Prisma.Product)
    (resp : HttpOutcome) (oid limit : Nat) :
    Prisma.orderPath db fb false resp oid limit
      = Prisma.orderPath db fb false HttpOutcome.fail oid limit := by
  unfold Prisma.orderPath
  simp only [Bool.false_and, Bool.false_eq_true, if_false]

/-- With the `USE_OLLAMA` flag off, the order path issues no generate call. -/
theorem orderPath_noOllama_gens (db : Prisma.Db) (fb : List Prisma.Product)
    (resp : HttpOutcome) (oid limit : Nat) :
    (Prisma.orderPath db fb false resp oid limit).2 = 0 := by
  unfold Prisma.orderPath
  simp only [Bool.false_and, Bool.false_eq_true, if_false]
  repeat' split
  all_goals rfl

/-- With the `USE_OLLAMA` flag off, the product path ignores its oracles. -/
theorem productPath_noOllama (db : Prisma.Db) (fb : List Prisma.Product)
    (resp : HttpOutcome) (pid limit : Nat) :
    Prisma.productPath db fb false resp pid limit
      = Prisma.productPath db fb false HttpOutcome.fail pid limit := by
  unfold Prisma.productPath
  simp only [Bool.false_and, Bool.false_eq_true, if_false]

/-- With the `USE_OLLAMA` flag off, the product path issues no generate
call. -/
theorem productPath_noOllama_gens (db : Prisma.Db) (fb : List Prisma.Product)
    (resp : HttpOutcome) (pid limit : Nat) :
    (Prisma.productPath db fb false resp pid limit).2 = 0 := by
  unfold Prisma.productPath
  simp only [Bool.false_and, Bool.false_eq_true, if_false]
  repeat' split
  all_goals rfl

/-- C9: with the environment flag off, neither implementation issues a probe
or a generate call, and the result coincides with the run whose oracles
report a dead endpoint — it is computed purely from candidate selection and
the popularity fallback. -/
theorem C9_confirmed :
    (∀ db avail probe resp a,
      Prisma.getRecommendations db avail false probe resp a
        = Prisma.getRecommendations db avail false false .fail a
      ∧ (Prisma.getRecommendations db avail false probe resp a).2 = ⟨0, 0⟩)
    ∧ (∀ c now db probe resp pid? limit,
      CacheImpl.getRecommendations c now db false probe resp pid? limit
        = CacheImpl.getRecommendations c now db false false .fail pid? limit
      ∧ (CacheImpl.getRecommendations c now db false probe resp pid? limit).2.2
        = ⟨0, 0⟩) := by
  constructor
  · intro db avail probe resp a
    have hmb : Prisma.mainBody db false probe resp a
        = Prisma.mainBody db false false .fail a := by
      unfold Prisma.mainBody
      cases a.orderId with
      | some oid => exact orderPath_noOllama db _ resp oid a.limit
      | none =>
        cases a.productId with
        | some pid => exact productPath_noOllama db _ resp pid a.limit
        | none => rfl
    have hg : (Prisma.mainBody db false probe resp a).2 = 0 := by
      unfold Prisma.mainBody
      cases a.orderId with
      | some oid => exact orderPath_noOllama_gens db _ resp oid a.limit
      | none =>
        cases a.productId with
        | some pid => exact productPath_noOllama_gens db _ resp pid a.limit
        | none => rfl
    constructor
    · unfold Prisma.getRecommendations
      rw [hmb]
    · unfold Prisma.getRecommendations
      cases avail with
      | true => exact congrArg (fun n => ({ probes := 0, gens := n } : Counts)) hg
      | false => rfl
  · intro c now db probe resp pid? limit
    constructor
    · unfold CacheImpl.getRecommendations
      simp only [Bool.false_and, Bool.false_eq_true, if_false]
    · unfold CacheImpl.getRecommendations
      simp only [Bool.false_and, Bool.false_eq_true, if_false]
      repeat' split
      all_goals rfl

/-- C10 witness: a fresh singleton cache is preserved up to permutation. -/
theorem C10_witness :
    CacheImpl.getPopularProducts ⟨some [cex10a], 5⟩ 5 ⟨true, []⟩ 4
      = .ok ((CacheImpl.sortDescC [cex10a]).take 4,
          ⟨some (CacheImpl.sortDescC [cex10a]), 5⟩)
    ∧ (CacheImpl.sortDescC [cex10a]).Perm [cex10a] :=
  C10_amended.1 ⟨some [cex10a], 5⟩ 5 ⟨true, []⟩ 4 [cex10a] rfl (by decide)

/-- Sorting by popularity preserves membership. -/
theorem Prisma.mem_sortDesc {l : List Prisma.Product} {x : Prisma.Product} :
    x ∈ Prisma.sortDesc l ↔ x ∈ l :=
  (sortByDesc_perm _ l).mem_iff

/-- A fallback product comes from the catalog and is never the seed. -/
theorem mem_fallbackProducts {db : Prisma.Db} {pid? : Option Nat} {limit : Nat}
    {x : Prisma.Product} (h : x ∈ Prisma.fallbackProducts db pid? limit) :
    x ∈ db.products ∧ ∀ pid, pid? = some pid → x.id ≠ pid := by
  have h1 := List.mem_of_mem_take h
  rw [Prisma.mem_sortDesc] at h1
  have h2 := List.mem_filter.mp h1
  refine ⟨h2.1, ?_⟩
  intro pid hp
  subst hp
  simpa using h2.2

/-- A pre-cap category match comes from the catalog and is never the seed. -/
theorem mem_similarPre {db : Prisma.Db} {pid : Nat} {cur x : Prisma.Product}
    (h : x ∈ Prisma.similarPre db pid cur) : x ∈ db.products ∧ x.id ≠ pid := by
  have h2 := List.mem_filter.mp h
  have h3 := h2.2
  simp only [Bool.and_eq_true, bne_iff_ne] at h3
  exact ⟨h2.1, h3.1⟩

/-- A capped category match comes from the catalog and is never the seed. -/
theorem mem_similarFor {db : Prisma.Db} {pid : Nat} {cur x : Prisma.Product}
    (h : x ∈ Prisma.similarFor db pid cur) : x ∈ db.products ∧ x.id ≠ pid :=
  mem_similarPre (List.mem_of_mem_take h)

/-- A supplemental popular product comes from the catalog and is never the
seed. -/
theorem mem_additionalFor {db : Prisma.Db} {pid : Nat}
    {similar : List Prisma.Product} {limit : Nat} {x : Prisma.Product}
    (h : x ∈ Prisma.additionalFor db pid similar limit) :
    x ∈ db.products ∧ x.id ≠ pid := by
  have h1 := List.mem_of_mem_take h
  rw [Prisma.mem_sortDesc] at h1
  have h2 := List.mem_filter.mp h1
  have h3 := h2.2
  simp only [Bool.and_eq_true, bne_iff_ne] at h3
  exact ⟨h2.1, h3.1⟩

/-- A product of the candidate pool comes from the catalog and is never the
seed. -/
theorem mem_toRankFor {db : Prisma.Db} {pid : Nat} {cur : Prisma.Product}
    {limit : Nat} {x : Prisma.Product} (h : x ∈ Prisma.toRankFor db pid cur limit) :
    x ∈ db.products ∧ x.id ≠ pid := by
  simp only [Prisma.toRankFor] at h
  split at h
  · rcases List.mem_append.mp h with h | h
    · exact mem_similarFor h
    · exact mem_additionalFor h
  · exact mem_similarFor h

/-- Ranked products come from the pool handed to the ranker. -/
theorem mem_rankedLookup {ids : List Nat} {pool : List Prisma.Product}
    {x : Prisma.Product} (h : x ∈ Prisma.rankedLookup ids pool) : x ∈ pool := by
  simp only [Prisma.rankedLookup, List.mem_filterMap] at h
  obtain ⟨i, _, hf⟩ := h
  exact List.mem_of_find?_eq_some hf

/-- Every entry of the category-plus-padding result is a category match or a
fallback product. -/
theorem mem_categoryResult {similar fb : List Prisma.Product} {limit : Nat}
    {slice : Bool} {x : Prisma.Product}
    (h : x ∈ Prisma.categoryResult similar fb limit slice) :
    x ∈ similar ∨ x ∈ fb := by
  simp only [Prisma.categoryResult] at h
  split at h
  · exact Or.inl (List.mem_of_mem_take h)
  · split at h
    · rcases List.mem_append.mp (List.mem_of_mem_take h) with h | h
      · exact Or.inl h
      · exact Or.inr (List.mem_filter.mp (List.mem_of_mem_take h)).1
    · rcases List.mem_append.mp h with h | h
      · exact Or.inl h
      · exact Or.inr (List.mem_filter.mp (List.mem_of_mem_take h)).1

/-- Every entry of the product-seeded branch result is a fallback product or
a catalog product other than the seed. -/
theorem mem_productPath {db : Prisma.Db} {fb : List Prisma.Product} {u : Bool}
    {resp : HttpOutcome} {pid limit : Nat} {x : Prisma.Product}
    (h : x ∈ (Prisma.productPath db fb u resp pid limit).1) :
    x ∈ fb ∨ (x ∈ db.products ∧ x.id ≠ pid) := by
  unfold Prisma.productPath at h
  dsimp only at h
  repeat' split at h
  all_goals first
    | exact Or.inl h
    | exact Or.inr (mem_toRankFor (mem_rankedLookup (List.mem_of_mem_take h)))
    | (rcases mem_categoryResult h with h2 | h2
       · exact Or.inr (mem_similarFor h2)
       · exact Or.inl h2)
    | (rcases List.mem_append.mp (List.mem_of_mem_take h) with h2 | h2
       · exact Or.inr (mem_toRankFor (mem_rankedLookup (List.mem_of_mem_take h2)))
       · exact Or.inr (mem_toRankFor (List.mem_filter.mp h2).1))

/-- C2 counterexample: in the cache implementation a request with a valid
seed (product `1` exists in the catalog) returns a list containing the seed
product itself — the popularity fallback does not exclude the seed. -/
theorem C2_counterexample :
    (CacheImpl.getRecommendations cex2cache 0 cexDb false false .fail
        (some 1) 2).1 = .ok [cex2seed, cex2other]
    ∧ (CacheImpl.sortDescC [cex2seed, cex2other]).find? (fun p => p.id == 1)
        = some cex2seed
    ∧ cex2seed.id = 1
    ∧ (1 : Nat) ∈ CacheImpl.cpids [cex2seed, cex2other] :=
  ⟨rfl, rfl, rfl, by decide⟩

/-- C2 (amended): in the Prisma implementation with storage available, a
product-seeded request never returns the seed product (every branch,
including fallback and padding, excludes it).  The cache implementation's
popularity fallback can return the seed, and the Prisma order path's
popularity fallback can return already-purchased products. -/
theorem C2_amended (db : Prisma.Db) (env probe : Bool) (resp : HttpOutcome)
    (pid limit : Nat) (l : List Prisma.Product) (c : Counts)
    (h : Prisma.getRecommendations db true env probe resp ⟨some pid, none, limit⟩
      = (.ok l, c)) :
    pid ∉ Prisma.pids l := by
  have h1 : Except.ok (Prisma.mainBody db env probe resp
      ⟨some pid, none, limit⟩).1 = Except.ok l := congrArg Prod.fst h
  injection h1 with h1
  have h2 : (Prisma.productPath db (Prisma.fallbackProducts db (some pid) limit)
      (env && probe) resp pid limit).1 = l := h1
  intro hmem
  obtain ⟨x, hx, hxid⟩ := List.mem_map.mp hmem
  rw [← h2] at hx
  rcases mem_productPath hx with hfb | ⟨_, hne⟩
  · exact (mem_fallbackProducts hfb).2 pid rfl hxid
  · exact hne hxid

/-- C2 witness: a concrete product-seeded Prisma run whose result omits the
seed. -/
theorem C2_witness : (1 : Nat) ∉ Prisma.pids [(⟨2, [1], 3⟩ : Prisma.Product)] :=
  C2_amended wDb2 false false .fail 1 2 [⟨2, [1], 3⟩] ⟨0, 0⟩ (by rfl)

/-- Mapped ids of a sublist stay duplicate-free. -/
theorem nodup_map_sublist {α : Type} (f : α → Nat) {l1 l2 : List α}
    (hs : l1.Sublist l2) (h : (l2.map f).Nodup) : (l1.map f).Nodup :=
  h.sublist (hs.map f)

/-- Sorting preserves duplicate-freedom of the mapped ids. -/
theorem nodup_map_sortByDesc {α : Type} (f : α → Nat) (key : α → Nat)
    {l : List α} (h : (l.map f).Nodup) : ((sortByDesc key l).map f).Nodup :=
  (((sortByDesc_perm key l).map f).nodup_iff).mpr h

/-- The ids of the products looked up for a ranked id list are exactly the
ids that resolve in the pool, in order. -/
theorem map_filterMap_find? {α : Type} (f : α → Nat) (ids : List Nat)
    (pool : List α) :
    (ids.filterMap (fun i => pool.find? (fun p => f p == i))).map f
      = ids.filter (fun i => (pool.find? (fun p => f p == i)).isSome) := by
  induction ids with
  | nil => rfl
  | cons i ids ih =>
    cases hf : pool.find? (fun p => f p == i) with
    | none => simp [List.filterMap_cons, List.filter_cons, hf, ih]
    | some p =>
      have hp : f p = i := by
        have := List.find?_some hf
        simpa using this
      simp [List.filterMap_cons, List.filter_cons, hf, ih, hp]

/-- An id appearing among the looked-up ranked products was proposed by the
model. -/
theorem mem_map_filterMap_find? {α : Type} (f : α → Nat) {ids : List Nat}
    {pool : List α} {i : Nat}
    (h : i ∈ (ids.filterMap (fun i => pool.find? (fun p => f p == i))).map f) :
    i ∈ ids := by
  rw [map_filterMap_find?] at h
  exact (List.mem_filter.mp h).1

/-- Catalog ids duplicate-free implies fallback ids duplicate-free. -/
theorem nodup_fallbackProducts {db : Prisma.Db} {pid? : Option Nat} {limit : Nat}
    (h : (Prisma.pids db.products).Nodup) :
    (Prisma.pids (Prisma.fallbackProducts db pid? limit)).Nodup :=
  nodup_map_sublist _ (List.take_sublist _ _)
    (nodup_map_sortByDesc _ _ (nodup_map_sublist _ (List.filter_sublist _) h))

/-- Catalog ids duplicate-free implies category-match ids duplicate-free. -/
theorem nodup_similarFor {db : Prisma.Db} {pid : Nat} {cur : Prisma.Product}
    (h : (Prisma.pids db.products).Nodup) :
    (Prisma.pids (Prisma.similarFor db pid cur)).Nodup :=
  nodup_map_sublist _ ((List.take_sublist _ _).trans (List.filter_sublist _)) h

/-- Catalog ids duplicate-free implies order-candidate ids duplicate-free. -/
theorem nodup_orderSimilar {db : Prisma.Db} {o : Prisma.Order} {limit : Nat}
    (h : (Prisma.pids db.products).Nodup) :
    (Prisma.pids (Prisma.orderSimilar db o limit)).Nodup :=
  nodup_map_sublist _ ((List.take_sublist _ _).trans (List.filter_sublist _)) h

/-- Catalog ids duplicate-free implies supplemental-product ids
duplicate-free. -/
theorem nodup_additionalFor {db : Prisma.Db} {pid : Nat}
    {similar : List Prisma.Product} {limit : Nat}
    (h : (Prisma.pids db.products).Nodup) :
    (Prisma.pids (Prisma.additionalFor db pid similar limit)).Nodup :=
  nodup_map_sublist _ (List.take_sublist _ _)
    (nodup_map_sortByDesc _ _ (nodup_map_sublist _ (List.filter_sublist _) h))

/-- A supplemental product never repeats a category-match id. -/
theorem mem_additionalFor_not_similar {db : Prisma.Db} {pid : Nat}
    {similar : List Prisma.Product} {limit : Nat} {y : Prisma.Product}
    (h : y ∈ Prisma.additionalFor db pid similar limit) :
    ∀ sp ∈ similar, sp.id ≠ y.id := by
  have h1 := List.mem_of_mem_take h
  rw [Prisma.mem_sortDesc] at h1
  have h2 := (List.mem_filter.mp h1).2
  simp only [Bool.and_eq_true, Bool.not_eq_true'] at h2
  intro sp hsp
  have h3 := List.any_eq_false.mp h2.2 sp hsp
  simpa using h3

/-- Catalog ids duplicate-free implies candidate-pool ids duplicate-free. -/
theorem nodup_toRankFor {db : Prisma.Db} {pid : Nat} {cur : Prisma.Product}
    {limit : Nat} (h : (Prisma.pids db.products).Nodup) :
    (Prisma.pids (Prisma.toRankFor db pid cur limit)).Nodup := by
  simp only [Prisma.toRankFor]
  split
  · simp only [Prisma.pids, List.map_append, List.nodup_append]
    refine ⟨nodup_similarFor h, nodup_additionalFor h, ?_⟩
    intro i hi hj
    obtain ⟨sp, hsp, hspid⟩ := List.mem_map.mp hi
    obtain ⟨y, hy, hyid⟩ := List.mem_map.mp hj
    exact mem_additionalFor_not_similar hy sp hsp (hspid.trans hyid.symm)
  · exact nodup_similarFor h

/-- A fallback product used for padding never repeats a category-match id. -/
theorem mem_fbpad_not_similar {similar fb : List Prisma.Product} {n : Nat}
    {y : Prisma.Product}
    (h : y ∈ (fb.filter (fun p => !(similar.any (fun sp => sp.id == p.id)))).take n) :
    ∀ sp ∈ similar, sp.id ≠ y.id := by
  have h2 := (List.mem_filter.mp (List.mem_of_mem_take h)).2
  simp only [Bool.not_eq_true'] at h2
  intro sp hsp
  have h3 := List.any_eq_false.mp h2 sp hsp
  simpa using h3

/-- Category-plus-padding results keep ids duplicate-free and respect the
limit. -/
theorem nodup_categoryResult {similar fb : List Prisma.Product} {limit : Nat}
    {slice : Bool} (hs : (Prisma.pids similar).Nodup)
    (hf : (Prisma.pids fb).Nodup) :
    (Prisma.pids (Prisma.categoryResult similar fb limit slice)).Nodup := by
  simp only [Prisma.categoryResult]
  split
  · exact nodup_map_sublist _ (List.take_sublist _ _) hs
  · have key : (Prisma.pids (similar ++
        (fb.filter (fun p => !(similar.any (fun sp => sp.id == p.id)))).take
          (limit - similar.length))).Nodup := by
      simp only [Prisma.pids, List.map_append, List.nodup_append]
      refine ⟨hs, nodup_map_sublist _
        ((List.take_sublist _ _).trans (List.filter_sublist _)) hf, ?_⟩
      intro i hi hj
      obtain ⟨sp, hsp, hspid⟩ := List.mem_map.mp hi
      obtain ⟨y, hy, hyid⟩ := List.mem_map.mp hj
      exact mem_fbpad_not_similar hy sp hsp (hspid.trans hyid.symm)
    split
    · exact nodup_map_sublist _ (List.take_sublist _ _) key
    · exact key

/-- The category-plus-padding result never exceeds the limit. -/
theorem len_categoryResult {similar fb : List Prisma.Product} {limit : Nat}
    {slice : Bool} :
    (Prisma.categoryResult similar fb limit slice).length ≤ limit := by
  simp only [Prisma.categoryResult]
  split
  · exact take_len_le _ _
  · rename_i hns
    have hp := take_len_le (limit - similar.length)
      (fb.filter (fun p => !(similar.any (fun sp => sp.id == p.id))))
    split
    · exact take_len_le _ _
    · rw [List.length_append]
      omega

/-- Ranked ids are duplicate-free when the proposed ids are. -/
theorem nodup_pids_rankedLookup {ids : List Nat} {pool : List Prisma.Product}
    (h : ids.Nodup) : (Prisma.pids (Prisma.rankedLookup ids pool)).Nodup := by
  have he : Prisma.pids (Prisma.rankedLookup ids pool)
      = ids.filter (fun i => (pool.find? (fun p => p.id == i)).isSome) :=
    map_filterMap_find? _ ids pool
  rw [he]
  exact h.filter _

/-- Ranked product ids come from the proposed id list. -/
theorem mem_pids_rankedLookup {ids : List Nat} {pool : List Prisma.Product}
    {i : Nat} (h : i ∈ Prisma.pids (Prisma.rankedLookup ids pool)) : i ∈ ids :=
  mem_map_filterMap_find? _ h

/-- A product kept by the not-recommended filter has an id outside the
proposed list. -/
theorem mem_filter_not_contains {l : List Prisma.Product} {ids : List Nat}
    {y : Prisma.Product}
    (h : y ∈ l.filter (fun p => !(ids.contains p.id))) : y.id ∉ ids := by
  have h2 := (List.mem_filter.mp h).2
  simp only [Bool.not_eq_true'] at h2
  simpa using h2

/-- Appending not-recommended candidates after the ranked products keeps ids
duplicate-free. -/
theorem nodup_ranked_append {pool : List Prisma.Product} {ids : List Nat}
    {n : Nat} {pad : List Prisma.Product}
    (hpool : (Prisma.pids pool).Nodup) (hids : ids.Nodup)
    (hpad : pad.Sublist (pool.filter (fun p => !(ids.contains p.id)))) :
    (Prisma.pids ((Prisma.rankedLookup ids pool).take n ++ pad)).Nodup := by
  simp only [Prisma.pids, List.map_append, List.nodup_append]
  refine ⟨nodup_map_sublist _ (List.take_sublist _ _) (nodup_pids_rankedLookup hids),
          nodup_map_sublist _ (hpad.trans (List.filter_sublist _)) hpool, ?_⟩
  intro i hi hj
  rw [List.map_take] at hi
  have h1 : i ∈ ids := mem_pids_rankedLookup (List.mem_of_mem_take hi)
  obtain ⟨y, hy, hyid⟩ := List.mem_map.mp hj
  exact mem_filter_not_contains (hpad.subset hy) (hyid ▸ h1)

/-- The product-seeded branch returns at most `limit` products with
duplicate-free ids, provided the catalog ids are duplicate-free, the fallback
list is within bounds, and every id list the ranker can return for this
response is duplicate-free. -/
theorem productPath_len_nodup {db : Prisma.Db} {fb : List Prisma.Product}
    {u : Bool} {resp : HttpOutcome} {pid limit : Nat}
    (hdb : (Prisma.pids db.products).Nodup)
    (hfb_len : fb.length ≤ limit) (hfb_nodup : (Prisma.pids fb).Nodup)
    (hno : ∀ cur tr ids b,
      Prisma.getOllamaRecommendations cur tr limit resp = (some ids, b) →
      ids.Nodup) :
    ((Prisma.productPath db fb u resp pid limit).1).length ≤ limit
    ∧ (Prisma.pids (Prisma.productPath db fb u resp pid limit).1).Nodup := by
  unfold Prisma.productPath
  dsimp only
  cases hfind : db.products.find? (fun p => p.id == pid) with
  | none => exact ⟨hfb_len, hfb_nodup⟩
  | some cur =>
    dsimp only
    have hcat : ((if (Prisma.similarFor db pid cur).isEmpty then fb
          else Prisma.categoryResult (Prisma.similarFor db pid cur) fb limit
            false)).length ≤ limit
        ∧ (Prisma.pids (if (Prisma.similarFor db pid cur).isEmpty then fb
          else Prisma.categoryResult (Prisma.similarFor db pid cur) fb limit
            false)).Nodup := by
      split
      · exact ⟨hfb_len, hfb_nodup⟩
      · exact ⟨len_categoryResult,
          nodup_categoryResult (nodup_similarFor hdb) hfb_nodup⟩
    split
    · exact ⟨hfb_len, hfb_nodup⟩
    · split
      · cases hol : Prisma.getOllamaRecommendations (some cur)
            (Prisma.toRankFor db pid cur limit) limit resp with
        | mk ids? c =>
          cases ids? with
          | none => exact hcat
          | some ids =>
            dsimp only
            have hids : ids.Nodup := hno _ _ _ _ hol
            split
            · exact hcat
            · split
              · exact ⟨take_len_le _ _, nodup_map_sublist _
                  (List.take_sublist _ _) (nodup_pids_rankedLookup hids)⟩
              · refine ⟨take_len_le _ _, ?_⟩
                exact nodup_map_sublist _ (List.take_sublist _ _)
                  (nodup_ranked_append (nodup_toRankFor hdb) hids
                    (List.Sublist.refl _))
      · exact hcat

/-- The order-seeded branch returns at most `limit` products with
duplicate-free ids, under the same hypotheses. -/
theorem orderPath_len_nodup {db : Prisma.Db} {fb : List Prisma.Product}
    {u : Bool} {resp : HttpOutcome} {oid limit : Nat}
    (hdb : (Prisma.pids db.products).Nodup)
    (hfb_len : fb.length ≤ limit) (hfb_nodup : (Prisma.pids fb).Nodup)
    (hno : ∀ o tr ids b,
      Prisma.getOllamaRecommendationsForOrder o tr limit resp = (some ids, b) →
      ids.Nodup) :
    ((Prisma.orderPath db fb u resp oid limit).1).length ≤ limit
    ∧ (Prisma.pids (Prisma.orderPath db fb u resp oid limit).1).Nodup := by
  unfold Prisma.orderPath
  dsimp only
  cases hfind : db.orders.find? (fun o => o.id == oid) with
  | none => exact ⟨hfb_len, hfb_nodup⟩
  | some o =>
    dsimp only
    split
    · exact ⟨hfb_len, hfb_nodup⟩
    · split
      · exact ⟨hfb_len, hfb_nodup⟩
      · have hcat : ((if (Prisma.orderSimilar db o limit).isEmpty then fb
              else Prisma.categoryResult (Prisma.orderSimilar db o limit) fb
                limit true)).length ≤ limit
            ∧ (Prisma.pids (if (Prisma.orderSimilar db o limit).isEmpty then fb
              else Prisma.categoryResult (Prisma.orderSimilar db o limit) fb
                limit true)).Nodup := by
          split
          · exact ⟨hfb_len, hfb_nodup⟩
          · exact ⟨len_categoryResult,
              nodup_categoryResult (nodup_orderSimilar hdb) hfb_nodup⟩
        split
        · cases hol : Prisma.getOllamaRecommendationsForOrder (some o)
              (Prisma.orderSimilar db o limit) limit resp with
          | mk ids? c =>
            cases ids? with
            | none => exact hcat
            | some ids =>
              dsimp only
              have hids : ids.Nodup := hno _ _ _ _ hol
              split
              · exact hcat
              · split
                · split
                  · constructor
                    · rw [List.length_append]
                      have h1 := take_len_le limit
                        (Prisma.rankedLookup ids (Prisma.orderSimilar db o limit))
                      have h2 := take_len_le
                        (limit - ((Prisma.rankedLookup ids
                          (Prisma.orderSimilar db o limit)).take limit).length)
                        ((Prisma.orderSimilar db o limit).filter
                          (fun p => !(ids.contains p.id)))
                      omega
                    · exact nodup_ranked_append (nodup_orderSimilar hdb) hids
                        (List.take_sublist _ _)
                  · exact ⟨take_len_le _ _, nodup_map_sublist _
                      (List.take_sublist _ _) (nodup_pids_rankedLookup hids)⟩
                · exact hcat
        · exact hcat

/-- Cache-side ranked ids are duplicate-free when the proposed ids are. -/
theorem nodup_cpids_rankedLookupC {ids : List Nat}
    {pool : List CacheImpl.CProduct} (h : ids.Nodup) :
    (CacheImpl.cpids (CacheImpl.rankedLookupC ids pool)).Nodup := by
  have he : CacheImpl.cpids (CacheImpl.rankedLookupC ids pool)
      = ids.filter (fun i => (pool.find? (fun p => p.id == i)).isSome) :=
    map_filterMap_find? _ ids pool
  rw [he]
  exact h.filter _

/-- The cache orchestrator's non-ranked tail respects the limit and keeps ids
duplicate-free. -/
theorem len_nodup_cacheNonRanked {similar fb : List CacheImpl.CProduct}
    {limit : Nat} (hs : (CacheImpl.cpids similar).Nodup)
    (hf : (CacheImpl.cpids fb).Nodup) (hfl : fb.length ≤ limit) :
    (CacheImpl.cacheNonRanked similar fb limit).length ≤ limit
    ∧ (CacheImpl.cpids (CacheImpl.cacheNonRanked similar fb limit)).Nodup := by
  simp only [CacheImpl.cacheNonRanked]
  split
  · exact ⟨take_len_le _ _, nodup_map_sublist _ (List.take_sublist _ _) hs⟩
  · exact ⟨hfl, hf⟩

/-- A thrown generate call makes the Prisma product ranker return `null`. -/
theorem prismaOllama_fail (cur : Option Prisma.Product)
    (tr : List Prisma.Product) (limit : Nat) :
    (Prisma.getOllamaRecommendations cur tr limit .fail).1 = none := by
  unfold Prisma.getOllamaRecommendations
  split <;> rfl

/-- A thrown generate call makes the Prisma order ranker return `null`. -/
theorem prismaOllamaOrder_fail (o : Option Prisma.Order)
    (tr : List Prisma.Product) (limit : Nat) :
    (Prisma.getOllamaRecommendationsForOrder o tr limit .fail).1 = none := by
  unfold Prisma.getOllamaRecommendationsForOrder
  split <;> rfl

/-- A thrown generate call makes the cache ranker return `null`. -/
theorem cacheOllama_fail (cur : Option CacheImpl.CProduct)
    (tr : List CacheImpl.CProduct) (limit : Nat) :
    (CacheImpl.getOllamaRecommendations cur tr limit .fail).1 = none := by
  unfold CacheImpl.getOllamaRecommendations
  split <;> rfl

/-- C3 counterexample: the cache implementation, fed a response whose parsed
id list is `[5, 5]`, returns the duplicated product `5` twice — its ids are
not duplicate-free. -/
theorem C3_counterexample :
    (CacheImpl.getRecommendations cex3cache 0 cexDb true true
        (.resp true (some "5 5")) (some 1) 2).1
      = .ok [⟨5, [1], 0, 50⟩, ⟨5, [1], 0, 50⟩]
    ∧ ¬ (CacheImpl.cpids
        [(⟨5, [1], 0, 50⟩ : CacheImpl.CProduct), ⟨5, [1], 0, 50⟩]).Nodup :=
  ⟨rfl, by decide⟩

/-- C3 (amended): every result has length at most `limit`, and its product
ids are duplicate-free provided the catalog ids are duplicate-free and every
id list the ranker returns for the given response is duplicate-free (a
duplicated parsed id is passed through and duplicates the result). -/
theorem C3_amended :
    (∀ db env probe resp a l c,
      (Prisma.pids db.products).Nodup →
      (∀ cur tr ids b, Prisma.getOllamaRecommendations cur tr a.limit resp
        = (some ids, b) → ids.Nodup) →
      (∀ o tr ids b, Prisma.getOllamaRecommendationsForOrder o tr a.limit resp
        = (some ids, b) → ids.Nodup) →
      Prisma.getRecommendations db true env probe resp a = (.ok l, c) →
      l.length ≤ a.limit ∧ (Prisma.pids l).Nodup)
    ∧ (∀ cSt now db env probe resp pid? limit l cc cn,
      (∀ d, cSt.data = some d → (CacheImpl.cpids d).Nodup) →
      (CacheImpl.cpids db.fresh).Nodup →
      (∀ cur tr ids b, CacheImpl.getOllamaRecommendations cur tr limit resp
        = (some ids, b) → ids.Nodup) →
      CacheImpl.getRecommendations cSt now db env probe resp pid? limit
        = (.ok l, cc, cn) →
      l.length ≤ limit ∧ (CacheImpl.cpids l).Nodup) := by
  constructor
  · intro db env probe resp a l c hdb hno1 hno2 h
    have h1 : Except.ok (Prisma.mainBody db env probe resp a).1 = Except.ok l :=
      congrArg Prod.fst h
    injection h1 with h1
    subst h1
    unfold Prisma.mainBody
    dsimp only
    cases ho : a.orderId with
    | some oid =>
      dsimp only
      exact orderPath_len_nodup hdb (take_len_le _ _)
        (nodup_fallbackProducts hdb) hno2
    | none =>
      cases hp : a.productId with
      | some pid =>
        dsimp only
        exact productPath_len_nodup hdb (take_len_le _ _)
          (nodup_fallbackProducts hdb) hno1
      | none =>
        dsimp only
        exact ⟨take_len_le _ _, nodup_fallbackProducts hdb⟩
  · intro cSt now db env probe resp pid? limit l cc cn hd hf hno h
    cases hfetch : CacheImpl.getProductsWithOrderCounts cSt now db with
    | error e =>
      unfold CacheImpl.getRecommendations at h
      rw [hfetch] at h
      dsimp only at h
      unfold CacheImpl.getPopularProducts at h
      rw [hfetch] at h
      dsimp only at h
      exact Except.noConfusion (congrArg Prod.fst h)
    | ok pr =>
      obtain ⟨ps, c1⟩ := pr
      have hps : (CacheImpl.cpids ps).Nodup := by
        unfold CacheImpl.getProductsWithOrderCounts at hfetch
        cases hcd : cSt.data with
        | some d =>
          rw [hcd] at hfetch
          dsimp only at hfetch
          split at hfetch
          · injection hfetch with hx
            rw [Prod.mk.injEq] at hx
            exact hx.1 ▸ hd d hcd
          · unfold CacheImpl.cacheRefresh at hfetch
            split at hfetch
            · injection hfetch with hx
              rw [Prod.mk.injEq] at hx
              exact hx.1 ▸ hf
            · exact Except.noConfusion hfetch
        | none =>
          rw [hcd] at hfetch
          dsimp only at hfetch
          unfold CacheImpl.cacheRefresh at hfetch
          split at hfetch
          · injection hfetch with hx
            rw [Prod.mk.injEq] at hx
            exact hx.1 ▸ hf
          · exact Except.noConfusion hfetch
      have hsorted : (CacheImpl.cpids (CacheImpl.sortDescC ps)).Nodup :=
        nodup_map_sortByDesc _ _ hps
      have hfb_len : ((CacheImpl.sortDescC ps).take limit).length ≤ limit :=
        take_len_le _ _
      have hfb_nodup : (CacheImpl.cpids ((CacheImpl.sortDescC ps).take
          limit)).Nodup :=
        nodup_map_sublist _ (List.take_sublist _ _) hsorted
      unfold CacheImpl.getRecommendations at h
      rw [hfetch] at h
      dsimp only at h
      cases pid? with
      | none =>
        have h1 := congrArg Prod.fst h
        injection h1 with h1
        exact h1 ▸ ⟨hfb_len, hfb_nodup⟩
      | some pid =>
        dsimp only at h
        cases hfind : (CacheImpl.sortDescC ps).find? (fun p => p.id == pid) with
        | none =>
          rw [hfind] at h
          dsimp only at h
          have h1 := congrArg Prod.fst h
          injection h1 with h1
          exact h1 ▸ ⟨hfb_len, hfb_nodup⟩
        | some cur =>
          rw [hfind] at h
          dsimp only at h
          have hsim : (CacheImpl.cpids (CacheImpl.cacheSimilar
              (CacheImpl.sortDescC ps) pid cur limit)).Nodup :=
            nodup_map_sublist _
              ((List.take_sublist _ _).trans (List.filter_sublist _)) hsorted
          have hnr := len_nodup_cacheNonRanked hsim hfb_nodup hfb_len
          split at h
          · cases hol : CacheImpl.getOllamaRecommendations (some cur)
                (CacheImpl.cacheSimilar (CacheImpl.sortDescC ps) pid cur limit)
                limit resp with
            | mk ids? c2 =>
              rw [hol] at h
              cases ids? with
              | none =>
                dsimp only at h
                have h1 := congrArg Prod.fst h
                injection h1 with h1
                exact h1 ▸ hnr
              | some ids =>
                dsimp only at h
                have hids : ids.Nodup := hno _ _ _ _ hol
                split at h
                · split at h
                  · have h1 := congrArg Prod.fst h
                    injection h1 with h1
                    exact h1 ▸ ⟨take_len_le _ _, nodup_map_sublist _
                      (List.take_sublist _ _) (nodup_cpids_rankedLookupC hids)⟩
                  · have h1 := congrArg Prod.fst h
                    injection h1 with h1
                    exact h1 ▸ hnr
                · have h1 := congrArg Prod.fst h
                  injection h1 with h1
                  exact h1 ▸ hnr
          · have h1 := congrArg Prod.fst h
            injection h1 with h1
            exact h1 ▸ hnr

/-- C3 witness: a concrete Prisma run within bounds and duplicate-free. -/
theorem C3_witness :
    ([(⟨2, [1], 3⟩ : Prisma.Product)]).length ≤ 2
    ∧ (Prisma.pids [(⟨2, [1], 3⟩ : Prisma.Product)]).Nodup :=
  C3_amended.1 wDb2 false false .fail ⟨some 1, none, 2⟩ [⟨2, [1], 3⟩] ⟨0, 0⟩
    (by decide)
    (fun cur tr ids b h => Option.noConfusion
      ((prismaOllama_fail cur tr 2).symm.trans (congrArg Prod.fst h)))
    (fun o tr ids b h => Option.noConfusion
      ((prismaOllamaOrder_fail o tr 2).symm.trans (congrArg Prod.fst h)))
    (by rfl)

/-- Every id returned by the Prisma product ranker maps to a pool product. -/
theorem prismaOllama_some_valid {cur : Option Prisma.Product}
    {tr : List Prisma.Product} {limit : Nat} {resp : HttpOutcome}
    {ids : List Nat} {b : Bool}
    (h : Prisma.getOllamaRecommendations cur tr limit resp = (some ids, b)) :
    ∀ i ∈ ids, tr.any (fun p => p.id == i) = true := by
  unfold Prisma.getOllamaRecommendations at h
  dsimp only at h
  repeat' split at h
  all_goals try (exact Option.noConfusion (congrArg Prod.fst h))
  rw [Prod.mk.injEq] at h
  obtain ⟨h1, h2⟩ := h
  injection h1 with h1
  subst h1
  intro i hi
  exact (List.mem_filter.mp hi).2

/-- A pool membership test by id implies the id lookup succeeds. -/
theorem find?_isSome_of_any {tr : List Prisma.Product} {i : Nat}
    (h : tr.any (fun p => p.id == i) = true) :
    (tr.find? (fun p => p.id == i)).isSome = true := by
  rw [List.find?_isSome]
  exact List.any_eq_true.mp h

/-- When every proposed id resolves in the pool, the ranked products carry
exactly the proposed ids, in the model's order. -/
theorem pids_rankedLookup_all_found {ids : List Nat}
    {pool : List Prisma.Product}
    (h : ∀ i ∈ ids, (pool.find? (fun p => p.id == i)).isSome = true) :
    (Prisma.rankedLookup ids pool).map (fun p => p.id) = ids := by
  have he := map_filterMap_find? (fun p : Prisma.Product => p.id) ids pool
  exact he.trans (List.filter_eq_self.mpr h)

/-- C4 counterexample: in the cache implementation, a ranking that succeeds
with `min 2 limit = 2` valid ids (`[4, 5]`) but fewer than `limit = 4` is
discarded entirely: the result is the candidate list in selection order, not
the ranked products followed by padding. -/
theorem C4_counterexample :
    CacheImpl.getOllamaRecommendations (some cex4seed)
        (CacheImpl.cacheSimilar (CacheImpl.sortDescC
          [⟨1, [1], 0, 50⟩, ⟨2, [1], 0, 50⟩, ⟨3, [1], 0, 50⟩, ⟨4, [1], 0, 50⟩,
           ⟨5, [1], 0, 50⟩]) 1 cex4seed 4) 4 (.resp true (some "4 5"))
      = (some [4, 5], true)
    ∧ min 2 4 ≤ ([4, 5] : List Nat).length
    ∧ (CacheImpl.getRecommendations cex4cache 0 cexDb true true
        (.resp true (some "4 5")) (some 1) 4).1
      = .ok [⟨2, [1], 0, 50⟩, ⟨3, [1], 0, 50⟩, ⟨4, [1], 0, 50⟩, ⟨5, [1], 0, 50⟩]
    ∧ ([(⟨2, [1], 0, 50⟩ : CacheImpl.CProduct), ⟨3, [1], 0, 50⟩,
        ⟨4, [1], 0, 50⟩, ⟨5, [1], 0, 50⟩].take 2)
      ≠ [⟨4, [1], 0, 50⟩, ⟨5, [1], 0, 50⟩] :=
  ⟨rfl, by decide, rfl, by decide⟩

/-- C4 (amended): in the Prisma product path, a successful ranking yields the
model-ordered valid products first (their ids are exactly the proposed ids,
truncated to `limit`), followed by not-recommended candidates in candidate
order; when ranking is skipped or fails, the result is the category matches in
selection order followed by fallback padding.  The cache implementation
instead discards a ranked set shorter than `limit` and uses no padding. -/
theorem C4_amended :
    (∀ db env probe resp pid limit l c cur ids b,
      Prisma.getRecommendations db true env probe resp ⟨some pid, none, limit⟩
        = (.ok l, c) →
      db.products.find? (fun p => p.id == pid) = some cur →
      cur.categories.isEmpty = false →
      (env && probe) = true →
      limit ≤ (Prisma.toRankFor db pid cur limit).length →
      Prisma.getOllamaRecommendations (some cur)
        (Prisma.toRankFor db pid cur limit) limit resp = (some ids, b) →
      ids ≠ [] →
      ∃ pad, l = (Prisma.rankedLookup ids
          (Prisma.toRankFor db pid cur limit)).take limit ++ pad
        ∧ pad.Sublist ((Prisma.toRankFor db pid cur limit).filter
            (fun p => !(ids.contains p.id)))
        ∧ Prisma.pids ((Prisma.rankedLookup ids
            (Prisma.toRankFor db pid cur limit)).take limit) = ids.take limit)
    ∧ (∀ db env probe resp pid limit l c cur,
      Prisma.getRecommendations db true env probe resp ⟨some pid, none, limit⟩
        = (.ok l, c) →
      db.products.find? (fun p => p.id == pid) = some cur →
      cur.categories.isEmpty = false →
      (env && probe) = false →
      Prisma.similarFor db pid cur ≠ [] →
      ∃ pad, l = (Prisma.similarFor db pid cur).take limit ++ pad
        ∧ pad.Sublist (Prisma.fallbackProducts db (some pid) limit))
    ∧ (∀ db env probe resp pid limit l c cur,
      Prisma.getRecommendations db true env probe resp ⟨some pid, none, limit⟩
        = (.ok l, c) →
      db.products.find? (fun p => p.id == pid) = some cur →
      cur.categories.isEmpty = false →
      (env && probe) = true →
      (Prisma.getOllamaRecommendations (some cur)
        (Prisma.toRankFor db pid cur limit) limit resp).1 = none →
      Prisma.similarFor db pid cur ≠ [] →
      ∃ pad, l = (Prisma.similarFor db pid cur).take limit ++ pad
        ∧ pad.Sublist (Prisma.fallbackProducts db (some pid) limit)) := by
  refine ⟨?_, ?_, ?_⟩
  · intro db env probe resp pid limit l c cur ids b h hfind hcats hgate hlen hol hids
    have h1 : Except.ok (Prisma.mainBody db env probe resp
        ⟨some pid, none, limit⟩).1 = Except.ok l := congrArg Prod.fst h
    injection h1 with h1
    have h2 : (Prisma.productPath db (Prisma.fallbackProducts db (some pid) limit)
        (env && probe) resp pid limit).1 = l := h1
    have hval := prismaOllama_some_valid hol
    have hpids : Prisma.pids ((Prisma.rankedLookup ids
        (Prisma.toRankFor db pid cur limit)).take limit) = ids.take limit := by
      show ((Prisma.rankedLookup ids
        (Prisma.toRankFor db pid cur limit)).take limit).map (fun p => p.id)
          = ids.take limit
      rw [List.map_take, pids_rankedLookup_all_found
        (fun i hi => find?_isSome_of_any (hval i hi))]
    rw [← h2]
    unfold Prisma.productPath
    rw [hfind]
    dsimp only
    rw [hcats]
    simp only [Bool.false_eq_true, if_false]
    split
    · rw [hol]
      dsimp only
      split
      · rename_i hemp
        exact absurd (List.isEmpty_iff.mp hemp) hids
      · split
        · exact ⟨[], (List.append_nil _).symm, List.nil_sublist _, hpids⟩
        · refine ⟨((Prisma.toRankFor db pid cur limit).filter
            (fun p => !(ids.contains p.id))).take
              (limit - ((Prisma.rankedLookup ids
                (Prisma.toRankFor db pid cur limit)).take limit).length),
            ?_, List.take_sublist _ _, hpids⟩
          rw [List.take_append_eq_append_take,
            List.take_of_length_le (take_len_le _ _)]
    · rename_i hg
      rw [hgate] at hg
      simp [hlen] at hg
  · intro db env probe resp pid limit l c cur h hfind hcats hgate hsim
    have h1 : Except.ok (Prisma.mainBody db env probe resp
        ⟨some pid, none, limit⟩).1 = Except.ok l := congrArg Prod.fst h
    injection h1 with h1
    have h2 : (Prisma.productPath db (Prisma.fallbackProducts db (some pid) limit)
        (env && probe) resp pid limit).1 = l := h1
    rw [← h2]
    unfold Prisma.productPath
    rw [hfind]
    dsimp only
    rw [hcats, hgate]
    simp only [Bool.false_eq_true, Bool.false_and, if_false]
    split
    · rename_i hemp
      exact absurd (List.isEmpty_iff.mp hemp) hsim
    · simp only [Prisma.categoryResult]
      split
      · rename_i hle
        exact ⟨[], (List.append_nil _).symm, List.nil_sublist _⟩
      · rename_i hle
        have hlen2 : (Prisma.similarFor db pid cur).length ≤ limit := by omega
        refine ⟨(((Prisma.fallbackProducts db (some pid) limit)).filter
            (fun p => !((Prisma.similarFor db pid cur).any
              (fun sp => sp.id == p.id)))).take
                (limit - (Prisma.similarFor db pid cur).length),
          ?_, (List.take_sublist _ _).trans (List.filter_sublist _)⟩
        simp only [Bool.false_eq_true, if_false]
        rw [List.take_of_length_le hlen2]
  · intro db env probe resp pid limit l c cur h hfind hcats hgate holn hsim
    have h1 : Except.ok (Prisma.mainBody db env probe resp
        ⟨some pid, none, limit⟩).1 = Except.ok l := congrArg Prod.fst h
    injection h1 with h1
    have h2 : (Prisma.productPath db (Prisma.fallbackProducts db (some pid) limit)
        (env && probe) resp pid limit).1 = l := h1
    rw [← h2]
    unfold Prisma.productPath
    rw [hfind]
    dsimp only
    rw [hcats]
    simp only [Bool.false_eq_true, if_false]
    have hcat : ∃ pad, (if (Prisma.similarFor db pid cur).isEmpty = true then
          Prisma.fallbackProducts db (some pid) limit
        else Prisma.categoryResult (Prisma.similarFor db pid cur)
          (Prisma.fallbackProducts db (some pid) limit) limit false)
        = (Prisma.similarFor db pid cur).take limit ++ pad
      ∧ pad.Sublist (Prisma.fallbackProducts db (some pid) limit) := by
      split
      · rename_i hemp
        exact absurd (List.isEmpty_iff.mp hemp) hsim
      · simp only [Prisma.categoryResult]
        split
        · exact ⟨[], (List.append_nil _).symm, List.nil_sublist _⟩
        · rename_i hle
          have hlen2 : (Prisma.similarFor db pid cur).length ≤ limit := by omega
          refine ⟨(((Prisma.fallbackProducts db (some pid) limit)).filter
              (fun p => !((Prisma.similarFor db pid cur).any
                (fun sp => sp.id == p.id)))).take
                  (limit - (Prisma.similarFor db pid cur).length),
            ?_, (List.take_sublist _ _).trans (List.filter_sublist _)⟩
          simp only [Bool.false_eq_true, if_false]
          rw [List.take_of_length_le hlen2]
    split
    · cases hol2 : Prisma.getOllamaRecommendations (some cur)
          (Prisma.toRankFor db pid cur limit) limit resp with
      | mk ids? c2 =>
        rw [hol2] at holn
        dsimp only at holn
        subst holn
        dsimp only
        exact hcat
    · exact hcat

/-- C4 witness: a concrete successful ranking run returning the model order
followed by (empty) padding. -/
theorem C4_witness :
    ∃ pad, [(⟨3, [1], 0⟩ : Prisma.Product), ⟨2, [1], 0⟩]
        = (Prisma.rankedLookup [3, 2] (Prisma.toRankFor wDb4 1 wCur4 2)).take 2
          ++ pad
      ∧ pad.Sublist ((Prisma.toRankFor wDb4 1 wCur4 2).filter
          (fun p => !(([3, 2] : List Nat).contains p.id)))
      ∧ Prisma.pids ((Prisma.rankedLookup [3, 2]
          (Prisma.toRankFor wDb4 1 wCur4 2)).take 2)
        = ([3, 2] : List Nat).take 2 :=
  C4_amended.1 wDb4 true true (.resp true (some "3 2")) 1 2
    [⟨3, [1], 0⟩, ⟨2, [1], 0⟩] ⟨1, 1⟩ wCur4 [3, 2] true (by rfl) (by rfl)
    (by decide) (by rfl) (by decide) (by rfl) (by decide)

end GSD

